import Mathlib

/-!
Verification of the pkgscript interpreter specification.

The repository ships the test suites and a handful of small helpers
(pkgscriptstruct/module.go, pkgscripttest); the interpreter core
(value model, VM, call protocol, Int conversions, bytecode container)
is exercised only through those tests.  Where the deciding code is
present (Module) the definitions below are translated from it; where
only its tests and callers exist, definitions are modelled from the
specification, and each such definition says so in its doc comment.
-/

namespace Pkgscript

/-- A Starlark value, restricted to the kinds the examined scenarios
touch: None, bool, arbitrary-precision int, string, tuple and list.
Modelled from the spec: the value model of the pkgscript core is not
under src/; the variants follow spec section 3. -/
inductive Val where
  | noneV : Val
  | boolV : Bool → Val
  | intV : Int → Val
  | strV : String → Val
  | tupleV : List Val → Val
  | listV : List Val → Val

/-- Modelled from the spec: the type_name capability of values
(spec section 3); names follow the error strings fixed by the tests,
such as NoneType and string. -/
def Val.typeName : Val → String
  | .noneV => "NoneType"
  | .boolV _ => "bool"
  | .intV _ => "int"
  | .strV _ => "string"
  | .tupleV _ => "tuple"
  | .listV _ => "list"

/-- String repetition: n copies of s concatenated, empty for n below one. -/
def repStr (n : Int) (s : String) : String :=
  String.join (List.replicate n.toNat s)

/-- Sequence repetition: n copies of xs concatenated, empty for n below one. -/
def repList (n : Int) (xs : List Val) : List Val :=
  (List.replicate n.toNat xs).flatten

/-- Modelled from the spec: the binary star operator of the VM
(missing from src/).  Int times int multiplies; an int with a string,
tuple or list repeats the sequence; any other pairing is rejected with
the unknown-binary-op message observed by the serialization test. -/
def binMul : Val → Val → Except String Val
  | .intV a, .intV b => .ok (.intV (a * b))
  | .intV a, .strV s => .ok (.strV (repStr a s))
  | .strV s, .intV a => .ok (.strV (repStr a s))
  | .intV a, .tupleV xs => .ok (.tupleV (repList a xs))
  | .tupleV xs, .intV a => .ok (.tupleV (repList a xs))
  | .intV a, .listV xs => .ok (.listV (repList a xs))
  | .listV xs, .intV a => .ok (.listV (repList a xs))
  | a, b => .error ("unknown binary op: " ++ a.typeName ++ " * " ++ b.typeName)

/-- Modelled from the spec: Program.Init for the once-compiled program
y = 2 * x of TestRepeatedExec (the VM is missing from src/).  Each run
is a pure function of the predeclared environment alone — there is no
state carried from one run to the next — and it evaluates the single
assignment, returning the resulting global binding for y. -/
def initTwice (env : String → Option Val) : Except String (List (String × Val)) :=
  match env "x" with
  | some x =>
      match binMul (.intV 2) x with
      | .ok v => .ok [("y", v)]
      | .error e => .error e
  | none => .error "undefined: x"

/-! ## Int.Int64 / Int.Uint64 conversions (C7) -/

/-- Smallest signed 64-bit value. -/
def int64Lo : Int := -9223372036854775808

/-- Largest signed 64-bit value. -/
def int64Hi : Int := 9223372036854775807

/-- Largest unsigned 64-bit value. -/
def uint64Hi : Int := 18446744073709551615

/-- Modelled from the spec: Int.Int64 (to_i64) of the arbitrary-precision
Int (int implementation missing from src/): yields the value exactly when
it fits in a signed 64-bit integer, otherwise reports failure. -/
def Int64 (v : Int) : Option Int :=
  if int64Lo ≤ v ∧ v ≤ int64Hi then some v else none

/-- Modelled from the spec: Int.Uint64 (to_u64): yields the value exactly
when it fits in an unsigned 64-bit integer, otherwise reports failure. -/
def Uint64 (v : Int) : Option Int :=
  if 0 ≤ v ∧ v ≤ uint64Hi then some v else none

/-! ## String indexing is byte-addressed (C6) -/

/-- UTF-8 encoding of a single code point, as byte values. -/
def charBytes (n : Nat) : List Nat :=
  if n < 0x80 then [n]
  else if n < 0x800 then [0xC0 + n / 0x40, 0x80 + n % 0x40]
  else if n < 0x10000 then
    [0xE0 + n / 0x1000, 0x80 + n / 0x40 % 0x40, 0x80 + n % 0x40]
  else
    [0xF0 + n / 0x40000, 0x80 + n / 0x1000 % 0x40, 0x80 + n / 0x40 % 0x40,
      0x80 + n % 0x40]

/-- The UTF-8 byte sequence of a string (spec section 3: a String is an
immutable byte sequence; indexing addresses these bytes). -/
def strBytes (s : String) : List Nat :=
  (s.data.map (fun c => charBytes c.toNat)).flatten

/-- Modelled from the spec: the VM's INDEX operation on strings (missing
from src/): s[i] is the one-byte substring at byte offset i, not the code
point at character position i. -/
def strIndex (s : List Nat) (i : Int) : Except String (List Nat) :=
  if 0 ≤ i ∧ i.toNat < s.length then .ok ((s.drop i.toNat).take 1)
  else .error "string index out of range"

/-- The bytes of the test string with a two-byte code point in the middle. -/
def aOmegaB : List Nat := strBytes "aΩb"

/-! ## Module.Attr (C9) — translated from src/pkgscriptstruct/module.go -/

/-- First value bound to a key in an association list; the Go map lookup
m.Members[name] yields nil (here: none) when the key is absent. -/
def lookupKey (k : String) : List (String × Val) → Option Val
  | [] => none
  | (k', v) :: rest => if k' = k then some v else lookupKey k rest

/-- A Module, from module.go: a name and a member dictionary. -/
structure Module where
  name : String
  members : List (String × Val)

/-- Module.Attr, translated from module.go line 21:
it returns the pair of the Go map lookup result and a nil error —
for an absent name the value component is nil (none) and the error
component is still nil, with no NoSuchAttrError sentinel involved. -/
def Module.Attr (m : Module) (attrName : String) : Option Val × Option String :=
  (lookupKey attrName m.members, none)

/-- Module.AttrNames, translated from module.go line 22: the member keys. -/
def Module.AttrNames (m : Module) : List String :=
  m.members.map Prod.fst

/-- The predeclared environment of TestRepeatedExec, binding x to v. -/
def envOf (v : Val) : String → Option Val :=
  fun n => if n = "x" then some v else none

/-- Taking one element of a drop picks out the element at that offset. -/
theorem drop_take_one (s : List Nat) :
    ∀ i : Nat, i < s.length → (s.drop i).take 1 = [s.getD i 0] := by
  induction s with
  | nil => intro i h; simp at h
  | cons a t ih =>
      intro i h
      cases i with
      | zero => rfl
      | succ j =>
          simp only [List.drop_succ_cons, List.getD_cons_succ]
          exact ih j (by simpa using h)

/-- An association-list lookup misses exactly when the key is not among
the keys. -/
theorem lookupKey_eq_none (k : String) :
    ∀ l : List (String × Val), lookupKey k l = none ↔ k ∉ l.map Prod.fst := by
  intro l
  induction l with
  | nil => simp [lookupKey]
  | cons p rest ih =>
      obtain ⟨k', v⟩ := p
      by_cases hk : k' = k
      · subst hk
        simp [lookupKey]
      · simp only [lookupKey, if_neg hk, List.map_cons, List.mem_cons, ih]
        constructor
        · intro h hmem
          rcases hmem with h1 | h2
          · exact hk h1.symm
          · exact h h2
        · intro h hmem
          exact h (Or.inr hmem)

/-- C6: for every string (byte sequence) s and in-range index i, the
indexing expression s[i] yields the one-byte substring at byte offset i;
concretely the bytes of the literal aΩb index as a at 0, the lone byte
0xCE at 1 (the first byte of Ω's two-byte encoding, not the code point),
and b at 3. -/
theorem string_index_is_byte_addressed :
    (∀ (s : List Nat) (i : Nat), i < s.length →
        strIndex s (Int.ofNat i) = .ok [s.getD i 0]) ∧
    strIndex aOmegaB 0 = .ok (strBytes "a") ∧
    strIndex aOmegaB 1 = .ok [0xCE] ∧
    strIndex aOmegaB 3 = .ok (strBytes "b") ∧
    [(0xCE : Nat)] ≠ strBytes "Ω" := by
  refine ⟨?_, rfl, rfl, rfl, by decide⟩
  intro s i h
  have hcond : 0 ≤ Int.ofNat i ∧ (Int.ofNat i).toNat < s.length := by
    constructor
    · exact Int.ofNat_nonneg i
    · simpa using h
  simp only [strIndex, if_pos hcond]
  rw [drop_take_one s _ (by simpa using h)]
  simp

/-- Closed instance of the C6 theorem at the concrete string and index 1. -/
theorem string_index_is_byte_addressed_witness :
    (1 : Nat) < aOmegaB.length ∧
      strIndex aOmegaB (Int.ofNat 1) = .ok [aOmegaB.getD 1 0] :=
  ⟨by decide, string_index_is_byte_addressed.1 aOmegaB 1 (by decide)⟩

/-- C7: Int64 succeeds exactly on the signed 64-bit range and Uint64
exactly on the unsigned 64-bit range, with the boundary rows of TestInt:
failure at MinInt64 - 1, at MaxUint64 + 1, and for negatives on Uint64;
success at both ends of each range. -/
theorem int_conversions_bounds :
    (∀ v : Int, (Int64 v).isSome ↔ (int64Lo ≤ v ∧ v ≤ int64Hi)) ∧
    (∀ v : Int, (Uint64 v).isSome ↔ (0 ≤ v ∧ v ≤ uint64Hi)) ∧
    Int64 (int64Lo - 1) = none ∧ Uint64 (int64Lo - 1) = none ∧
    Int64 int64Lo = some int64Lo ∧ Uint64 int64Lo = none ∧
    Int64 (-1) = some (-1) ∧ Uint64 (-1) = none ∧
    Int64 0 = some 0 ∧ Uint64 0 = some 0 ∧
    Int64 int64Hi = some int64Hi ∧ Uint64 int64Hi = some int64Hi ∧
    Int64 uint64Hi = none ∧ Uint64 uint64Hi = some uint64Hi ∧
    Int64 (uint64Hi + 1) = none ∧ Uint64 (uint64Hi + 1) = none := by
  refine ⟨?_, ?_, by decide, by decide, by decide, by decide, by decide,
    by decide, by decide, by decide, by decide, by decide, by decide,
    by decide, by decide, by decide⟩
  · intro v
    by_cases h : int64Lo ≤ v ∧ v ≤ int64Hi <;> simp [Int64, h]
  · intro v
    by_cases h : 0 ≤ v ∧ v ≤ uint64Hi <;> simp [Uint64, h]

/-- C8: the program y = 2 * x compiled once and re-run with fresh
predeclared environments is a pure function of the environment; with
x = 42 it yields y = 84, with x = the string mur it yields murmur, and
with x = the one-tuple (None,) it yields (None, None). -/
theorem repeated_exec_varying_predeclared :
    initTwice (envOf (.intV 42)) = .ok [("y", .intV 84)] ∧
    initTwice (envOf (.strV "mur")) = .ok [("y", .strV "murmur")] ∧
    initTwice (envOf (.tupleV [.noneV])) =
      .ok [("y", .tupleV [.noneV, .noneV])] :=
  ⟨rfl, rfl, rfl⟩

/-- C9 counterexample: Module.Attr on a missing name returns a nil value
together with a nil error — success carrying a null value — so the claim
that it never returns a null value with success is false of module.go. -/
theorem module_attr_nil_with_success :
    Module.Attr ⟨"m", []⟩ "f" = (none, none) := rfl

/-- C9 amended: Module.Attr never returns a non-nil error; it returns a
nil value exactly when the name is absent from the member names, so
absence is signalled by the nil result, not by a sentinel error. -/
theorem module_attr_absent_is_nil_value :
    ∀ (m : Module) (n : String),
      (m.Attr n).2 = none ∧ ((m.Attr n).1 = none ↔ n ∉ m.AttrNames) := by
  intro m n
  exact ⟨rfl, lookupKey_eq_none n m.members⟩

/-! ## Call protocol: parameter binding (C2) -/

/-- A parameter slot during binding: name, default (none when the
parameter is required), and the value assigned so far. -/
structure Slot where
  sname : String
  sdefault : Option Val
  sval : Option Val

/-- A callee's parameter descriptor (spec section 4.5): positional
parameters with optional defaults, a star-args sink, keyword-only
parameters with optional defaults, and a star-star-kwargs sink. -/
structure ParamSpec where
  pos : List (String × Option Val)
  varargs : Bool
  kwonly : List (String × Option Val)
  kwargs : Bool

/-- Fresh unassigned slots for a parameter list. -/
def initSlots (ps : List (String × Option Val)) : List Slot :=
  ps.map fun p => ⟨p.1, p.2, none⟩

/-- Step 1 of the binding order: assign positionals left-to-right. -/
def fillPos : List Slot → List Val → List Slot
  | slots, [] => slots
  | [], _ => []
  | s :: rest, a :: args => { s with sval := some a } :: fillPos rest args

/-- Try to assign one keyword into the slots; error true means the
parameter already has a value, error false means no such parameter. -/
def assignSlot (k : String) (v : Val) : List Slot → Except Bool (List Slot)
  | [] => .error false
  | s :: rest =>
      if s.sname = k then
        match s.sval with
        | some _ => .error true
        | none => .ok ({ s with sval := some v } :: rest)
      else
        match assignSlot k v rest with
        | .ok rest' => .ok (s :: rest')
        | .error b => .error b

/-- Step 2 of the binding order: assign keywords by name, collecting
unmatched ones for the kwargs sink or rejecting them. -/
def processKw (fname : String) (hasKwargs : Bool) (slots : List Slot)
    (acc : List (String × Val)) :
    List (String × Val) → Except String (List Slot × List (String × Val))
  | [] => .ok (slots, acc)
  | (k, v) :: rest =>
      match assignSlot k v slots with
      | .ok slots' => processKw fname hasKwargs slots' acc rest
      | .error true =>
          .error ("function " ++ fname ++
            " got multiple values for parameter \"" ++ k ++ "\"")
      | .error false =>
          if hasKwargs then
            processKw fname hasKwargs slots (acc ++ [(k, v)]) rest
          else
            .error ("function " ++ fname ++
              " got an unexpected keyword argument \"" ++ k ++ "\"")

/-- Step 4: the still-unassigned required parameter names, in
declaration order. -/
def missingNames (slots : List Slot) : List String :=
  (slots.filter fun s => s.sval.isNone && s.sdefault.isNone).map Slot.sname

/-- The single missing-arguments error, listing all names at once. -/
def missingErr (fname : String) (ms : List String) : String :=
  "function " ++ fname ++ " missing " ++ toString ms.length ++ " argument" ++
    (if ms.length == 1 then "" else "s") ++
    " (" ++ String.intercalate ", " ms ++ ")"

/-- The too-many-positionals error, in the shapes the tests fix. -/
def arityErr (fname : String) (sp : ParamSpec) (given : Nat) : String :=
  if sp.pos.length == 0 && !sp.kwargs && sp.kwonly.isEmpty then
    "function " ++ fname ++ " accepts no arguments (" ++ toString given ++
      " given)"
  else
    "function " ++ fname ++ " accepts " ++
      (if sp.pos.any fun p => p.2.isSome then "at most " else "") ++
      toString sp.pos.length ++ " positional arguments (" ++ toString given ++
      " given)"

/-- Step 3 and 5: fill defaults for unassigned optional slots and read
off the bound values in declaration order. -/
def finishSlots : List Slot → List Val
  | [] => []
  | s :: rest =>
      (match s.sval with
       | some v => v
       | none => s.sdefault.getD .noneV) :: finishSlots rest

/-- Modelled from the spec: the call-protocol binding order of section
4.5 (the VM is missing from src/): positionals left-to-right, keywords
by name, defaults, one error collecting all missing required names in
declaration order, and overflow into the varargs and kwargs sinks.
Returns the bound parameter values in declaration order together with
the extra positionals and extra keywords. -/
def bindParams (fname : String) (sp : ParamSpec) (args : List Val)
    (kws : List (String × Val)) :
    Except String (List Val × List Val × List (String × Val)) :=
  let npos := sp.pos.length
  if sp.varargs = false ∧ npos < args.length then
    .error (arityErr fname sp args.length)
  else
    match processKw fname sp.kwargs
        (fillPos (initSlots sp.pos) (args.take npos) ++ initSlots sp.kwonly)
        [] kws with
    | .error e => .error e
    | .ok (slots, extraKw) =>
        let ms := missingNames slots
        if ms.isEmpty then .ok (finishSlots slots, args.drop npos, extraKw)
        else .error (missingErr fname ms)

/-- The descriptor of def b(a, b) from TestParameterPassing. -/
def bSpec : ParamSpec := ⟨[("a", none), ("b", none)], false, [], false⟩

/-- Calling def b(a, b): return a, b — bind, then build the result
tuple from the two bound parameters. -/
def callB (args : List Val) (kws : List (String × Val)) : Except String Val :=
  match bindParams "b" bSpec args kws with
  | .ok (vals, _, _) => .ok (.tupleV vals)
  | .error e => .error e

/-- The descriptor of def c(a, b=42) from TestParameterPassing. -/
def cSpec : ParamSpec := ⟨[("a", none), ("b", some (.intV 42))], false, [], false⟩

/-- The descriptor of def i(a, b=42, *, c, d=123, e, **kwargs). -/
def iSpec : ParamSpec :=
  ⟨[("a", none), ("b", some (.intV 42))], false,
   [("c", none), ("d", some (.intV 123)), ("e", none)], true⟩

/-- C2: the binding order of the call protocol gives, for
def b(a, b): return a, b, exactly the outcomes the spec fixes:
b(1, 2) is the tuple (1, 2); b() fails with the single
missing-arguments error naming a and b in declaration order; and
b(1, a=2) fails with the multiple-values error for a.  The same binder
fills defaults (c(1) binds b to 42) and collects every missing required
name of i() in declaration order across positional and keyword-only
parameters. -/
theorem parameter_binding_scenarios :
    callB [.intV 1, .intV 2] [] = .ok (.tupleV [.intV 1, .intV 2]) ∧
    callB [] [] = .error "function b missing 2 arguments (a, b)" ∧
    callB [.intV 1] [("a", .intV 2)] =
      .error "function b got multiple values for parameter \"a\"" ∧
    callB [.intV 1] [("b", .intV 2)] = .ok (.tupleV [.intV 1, .intV 2]) ∧
    callB [.intV 1, .intV 2, .intV 3] [] =
      .error "function b accepts 2 positional arguments (3 given)" ∧
    callB [.intV 1] [("x", .intV 2)] =
      .error "function b got an unexpected keyword argument \"x\"" ∧
    bindParams "c" cSpec [.intV 1] [] =
      .ok ([.intV 1, .intV 42], [], []) ∧
    bindParams "i" iSpec [] [] =
      .error "function i missing 3 arguments (a, c, e)" ∧
    bindParams "i" iSpec [.intV 0] [] =
      .error "function i missing 2 arguments (c, e)" :=
  ⟨rfl, rfl, rfl, rfl, rfl, rfl, rfl, rfl, rfl⟩

/-! ## Freezing (C3) -/

mutual

/-- A value carrying freeze state.  The hasfields variant is translated
from the test helper in src (attrs map plus a frozen flag); the list
variant is modelled from the spec (mutable container with a frozen
flag); scalars carry no state.  The element spines are dedicated types
so that all recursion is structural. -/
inductive FVal where
  | noneF : FVal
  | intF : Int → FVal
  | strF : String → FVal
  | listF : Bool → FList → FVal
  | fieldsF : Bool → FAttrs → FVal

/-- A spine of list elements. -/
inductive FList where
  | fnil : FList
  | fcons : FVal → FList → FList

/-- A spine of named fields. -/
inductive FAttrs where
  | anil : FAttrs
  | acons : String → FVal → FAttrs → FAttrs

end

mutual

/-- Freeze, translated from hasfields.Freeze (set the flag, then freeze
every contained value) and the spec's recursive-freeze rule for
containers; scalars are unaffected. -/
def freezeVal : FVal → FVal
  | .noneF => .noneF
  | .intF i => .intF i
  | .strF s => .strF s
  | .listF _ xs => .listF true (freezeElems xs)
  | .fieldsF _ attrs => .fieldsF true (freezeAttrs attrs)

/-- Freeze every element of a list spine. -/
def freezeElems : FList → FList
  | .fnil => .fnil
  | .fcons x xs => .fcons (freezeVal x) (freezeElems xs)

/-- Freeze every field value of an attribute spine. -/
def freezeAttrs : FAttrs → FAttrs
  | .anil => .anil
  | .acons k v rest => .acons k (freezeVal v) (freezeAttrs rest)

end

mutual

/-- A value is deeply frozen when every container node in it has its
frozen flag set. -/
def deepV : FVal → Bool
  | .noneF => true
  | .intF _ => true
  | .strF _ => true
  | .listF f xs => f && deepL xs
  | .fieldsF f attrs => f && deepA attrs

/-- All elements of a list spine are deeply frozen. -/
def deepL : FList → Bool
  | .fnil => true
  | .fcons x xs => deepV x && deepL xs

/-- All field values of an attribute spine are deeply frozen. -/
def deepA : FAttrs → Bool
  | .anil => true
  | .acons _ v rest => deepV v && deepA rest

end

/-- Membership in a list spine. -/
inductive MemL : FVal → FList → Prop where
  | head (x : FVal) (xs : FList) : MemL x (.fcons x xs)
  | tail (x y : FVal) (xs : FList) : MemL x xs → MemL x (.fcons y xs)

/-- Membership of a field value in an attribute spine. -/
inductive MemA : FVal → FAttrs → Prop where
  | head (k : String) (v : FVal) (rest : FAttrs) : MemA v (.acons k v rest)
  | tail (v : FVal) (k : String) (w : FVal) (rest : FAttrs) :
      MemA v rest → MemA v (.acons k w rest)

/-- d is v itself or a transitive descendant: an element of a contained
list or the value of a contained field. -/
inductive Subvalue : FVal → FVal → Prop where
  | refl (v : FVal) : Subvalue v v
  | inList {d x : FVal} {f : Bool} {xs : FList} :
      MemL x xs → Subvalue d x → Subvalue d (.listF f xs)
  | inFields {d x : FVal} {f : Bool} {attrs : FAttrs} :
      MemA x attrs → Subvalue d x → Subvalue d (.fieldsF f attrs)

/-- Insert or replace a field in an attribute spine. -/
def setAttr (k : String) (v : FVal) : FAttrs → FAttrs
  | .anil => .acons k v .anil
  | .acons k' v' rest =>
      if k' = k then .acons k v rest else .acons k' v' (setAttr k v rest)

/-- First value bound to a key in an attribute spine. -/
def lookupAttr (k : String) : FAttrs → Option FVal
  | .anil => none
  | .acons k' v rest => if k' = k then some v else lookupAttr k rest

/-- The type name of a freeze-state value. -/
def FVal.ftypeName : FVal → String
  | .noneF => "NoneType"
  | .intF _ => "int"
  | .strF _ => "string"
  | .listF _ _ => "list"
  | .fieldsF _ _ => "hasfields"

/-- SetField, translated from hasfields.SetField in src: a frozen
receiver rejects the mutation with the frozen error; a field name with
the no prefix reports a missing-attribute error; otherwise the field is
stored.  Values without fields reject the operation. -/
def FVal.SetField : FVal → String → FVal → Except String FVal
  | .fieldsF frozen attrs, n, v =>
      if frozen then .error "cannot set field on a frozen hasfields"
      else if n.startsWith "no" then .error ("no ." ++ n ++ " field")
      else .ok (.fieldsF false (setAttr n v attrs))
  | w, _, _ => .error (FVal.ftypeName w ++ " has no fields")

/-- Append an element to a list spine. -/
def appendL (v : FVal) : FList → FList
  | .fnil => .fcons v .fnil
  | .fcons x xs => .fcons x (appendL v xs)

/-- Modelled from the spec: list mutation (the List implementation is
missing from src/): a frozen list rejects any insertion with a
structured frozen error. -/
def FVal.Append : FVal → FVal → Except String FVal
  | .listF frozen xs, v =>
      if frozen then .error "cannot append to frozen list"
      else .ok (.listF false (appendL v xs))
  | w, _ => .error (FVal.ftypeName w ++ " does not support append")

/-- Attribute read, translated from hasfields.Attr in src: the lookup
result with a nil error, with no frozen check — reads stay available. -/
def FVal.AttrRead : FVal → String → Option FVal × Option String
  | .fieldsF _ attrs, n => (lookupAttr n attrs, none)
  | _, _ => (none, none)

mutual

/-- Freezing leaves every container node of the result flagged frozen. -/
theorem deepV_freezeVal : ∀ v : FVal, deepV (freezeVal v) = true
  | .noneF => rfl
  | .intF _ => rfl
  | .strF _ => rfl
  | .listF _ xs => by
      simp only [freezeVal, deepV, Bool.true_and]
      exact deepL_freezeElems xs
  | .fieldsF _ attrs => by
      simp only [freezeVal, deepV, Bool.true_and]
      exact deepA_freezeAttrs attrs

/-- Freezing a list spine leaves every element deeply frozen. -/
theorem deepL_freezeElems : ∀ xs : FList, deepL (freezeElems xs) = true
  | .fnil => rfl
  | .fcons x xs => by
      simp only [freezeElems, deepL, Bool.and_eq_true]
      exact ⟨deepV_freezeVal x, deepL_freezeElems xs⟩

/-- Freezing an attribute spine leaves every field value deeply frozen. -/
theorem deepA_freezeAttrs : ∀ attrs : FAttrs, deepA (freezeAttrs attrs) = true
  | .anil => rfl
  | .acons _ v rest => by
      simp only [freezeAttrs, deepA, Bool.and_eq_true]
      exact ⟨deepV_freezeVal v, deepA_freezeAttrs rest⟩

end

/-- A member of a deeply frozen list spine is deeply frozen. -/
theorem deepV_of_memL {x : FVal} {xs : FList} (h : MemL x xs)
    (hd : deepL xs = true) : deepV x = true := by
  induction h with
  | head _ =>
      simp only [deepL, Bool.and_eq_true] at hd
      exact hd.1
  | tail _ _ _ ih =>
      simp only [deepL, Bool.and_eq_true] at hd
      exact ih hd.2

/-- A field value of a deeply frozen attribute spine is deeply frozen. -/
theorem deepV_of_memA {v : FVal} {attrs : FAttrs} (h : MemA v attrs)
    (hd : deepA attrs = true) : deepV v = true := by
  induction h with
  | head _ _ =>
      simp only [deepA, Bool.and_eq_true] at hd
      exact hd.1
  | tail _ _ _ _ _ ih =>
      simp only [deepA, Bool.and_eq_true] at hd
      exact ih hd.2

/-- Descendants of a deeply frozen value are deeply frozen. -/
theorem deepV_of_subvalue {d w : FVal} (h : Subvalue d w)
    (hd : deepV w = true) : deepV d = true := by
  induction h with
  | refl => exact hd
  | inList hm _ ih =>
      simp only [deepV, Bool.and_eq_true] at hd
      exact ih (deepV_of_memL hm hd.2)
  | inFields hm _ ih =>
      simp only [deepV, Bool.and_eq_true] at hd
      exact ih (deepV_of_memA hm hd.2)

/-- C3: freeze(v) recursively freezes every contained value, and every
descendant of the result rejects mutation — appending to a descendant
list and setting a field on a descendant hasfields both fail with the
frozen-mutation errors — while attribute reads never produce an error. -/
theorem freeze_descendant_mutation_fails :
    ∀ v : FVal, deepV (freezeVal v) = true ∧
    ∀ d, Subvalue d (freezeVal v) →
      (∀ f xs, d = .listF f xs →
        ∀ x, FVal.Append d x = .error "cannot append to frozen list") ∧
      (∀ f attrs, d = .fieldsF f attrs →
        ∀ n x, FVal.SetField d n x =
          .error "cannot set field on a frozen hasfields") ∧
      (∀ n, (FVal.AttrRead d n).2 = none) := by
  intro v
  refine ⟨deepV_freezeVal v, ?_⟩
  intro d hsub
  have hdeep : deepV d = true := deepV_of_subvalue hsub (deepV_freezeVal v)
  refine ⟨?_, ?_, ?_⟩
  · intro f xs heq x
    subst heq
    have hf : f = true := by
      simp only [deepV, Bool.and_eq_true] at hdeep
      exact hdeep.1
    subst hf
    rfl
  · intro f attrs heq n x
    subst heq
    have hf : f = true := by
      simp only [deepV, Bool.and_eq_true] at hdeep
      exact hdeep.1
    subst hf
    rfl
  · intro n
    cases d <;> rfl

/-- A sample unfrozen value for the C3 witness: a hasfields with one
field holding a mutable list. -/
def sampleFields : FVal :=
  .fieldsF false (.acons "a" (.listF false (.fcons (.intF 1) .fnil)) .anil)

/-- Closed instance of the C3 theorem: the list reached through the
frozen sample's field rejects an append with the frozen error. -/
theorem freeze_descendant_mutation_fails_witness :
    Subvalue (.listF true (.fcons (.intF 1) .fnil)) (freezeVal sampleFields) ∧
    FVal.Append (.listF true (.fcons (.intF 1) .fnil)) (.intF 2) =
      .error "cannot append to frozen list" := by
  have hsub : Subvalue (.listF true (.fcons (.intF 1) .fnil))
      (freezeVal sampleFields) :=
    Subvalue.inFields (MemA.head _ _ _) (Subvalue.refl _)
  refine ⟨hsub, ?_⟩
  exact ((freeze_descendant_mutation_fails sampleFields).2 _ hsub).1
    true _ rfl (.intF 2)

/-! ## Evaluation errors and backtraces (C4, C1) -/

/-- An evaluation error: a message and the ordered call-stack snapshot,
outermost frame first; a frame is a rendered position and the name of
the active function (spec section 4.5, Backtraces). -/
structure EvalError where
  msg : String
  frames : List (String × String)

/-- EvalError.Backtrace: the rendered traceback, one line per frame
from top-level to innermost, then the final Error line. -/
def Backtrace (e : EvalError) : String :=
  "Traceback (most recent call last):\n" ++
    String.join (e.frames.map fun fr => "  " ++ fr.1 ++ ": in " ++ fr.2 ++ "\n") ++
    "Error: " ++ e.msg

/-- The call stack grown so far, outermost first. -/
abbrev Frames := List (String × String)

/-- The filename of the TestBacktrace program. -/
def crashStar : String := "crash.star"

/-- Modelled from the spec: def f(x): return 1//x of scenario S3 (the
VM is missing from src/).  Floor division by zero is the structured
error, raised with f's frame at the position of the division. -/
def fBody (stack : Frames) (x : Int) : Except EvalError Val :=
  let stack := stack ++ [(crashStar ++ ":2:19", "f")]
  if x = 0 then .error ⟨"floored division by zero", stack⟩
  else .ok (.intV (Int.fdiv 1 x))

/-- Modelled from the spec: def g(x): f(x) — calls f at 3:12 and, having
no return statement, yields None. -/
def gBody (stack : Frames) (x : Int) : Except EvalError Val := do
  let _ ← fBody (stack ++ [(crashStar ++ ":3:12", "g")]) x
  pure .noneV

/-- Modelled from the spec: ordered comparison, only as far as scenario
S3 needs it — equal None keys are not below one another, and ints
compare numerically. -/
def cmpLess : Val → Val → Except String Bool
  | .intV a, .intV b => .ok (decide (a < b))
  | .noneV, .noneV => .ok false
  | a, b => .error (a.typeName ++ " < " ++ b.typeName ++ " not implemented")

/-- The loop of the min built-in: compute the key of each remaining
element, keep the element whose key is least, propagating any error
raised by the key function with the stack as of the built-in frame. -/
def minLoop (stack : Frames) (key : Frames → Int → Except EvalError Val)
    (ext : Int) (extKey : Val) : List Int → Except EvalError (Int × Val)
  | [] => .ok (ext, extKey)
  | x :: xs => do
      let k ← key stack x
      match cmpLess k extKey with
      | .ok true => minLoop stack key x k xs
      | .ok false => minLoop stack key ext extKey xs
      | .error m => .error ⟨m, stack⟩

/-- Modelled from the spec: the min built-in with a key callback.  As a
host built-in its own frame renders with the position marker of
built-ins, and errors from the callback pass through unchanged. -/
def minBuiltin (stack : Frames) (key : Frames → Int → Except EvalError Val)
    (xs : List Int) : Except EvalError Val :=
  let stack := stack ++ [("<builtin>", "min")]
  match xs with
  | [] => .error ⟨"min: argument is an empty sequence", stack⟩
  | x :: rest => do
      let k ← key stack x
      let r ← minLoop stack key x k rest
      pure (.intV r.1)

/-- Modelled from the spec: def h(): return min([1, 2, 0], key=g),
calling min at 4:20. -/
def hBody (stack : Frames) : Except EvalError Val :=
  minBuiltin (stack ++ [(crashStar ++ ":4:20", "h")]) gBody [1, 2, 0]

/-- Modelled from the spec: def i(): return h(), calling h at 5:18. -/
def iBody (stack : Frames) : Except EvalError Val :=
  hBody (stack ++ [(crashStar ++ ":5:18", "i")])

/-- The whole S3 program: top level calls i() at 6:2. -/
def crashRun : Except EvalError Val :=
  iBody [(crashStar ++ ":6:2", "<toplevel>")]

/-- The evaluation error the S3 program is expected to produce. -/
def crashErr : EvalError :=
  ⟨"floored division by zero",
   [("crash.star:6:2", "<toplevel>"), ("crash.star:5:18", "i"),
    ("crash.star:4:20", "h"), ("<builtin>", "min"),
    ("crash.star:3:12", "g"), ("crash.star:2:19", "f")]⟩

/-- C4: the S3 program fails with an EvalError whose snapshot holds
exactly six frames ordered top-level to innermost — toplevel, i, h, the
min built-in rendered at the builtin position, g, f — and whose
rendered backtrace ends with the floored-division-by-zero line. -/
theorem backtrace_six_frames :
    crashRun = .error crashErr ∧
    crashErr.frames.length = 6 ∧
    crashErr.frames.map Prod.snd = ["<toplevel>", "i", "h", "min", "g", "f"] ∧
    (crashErr.frames.filter fun fr => fr.1 == "<builtin>") =
      [("<builtin>", "min")] ∧
    Backtrace crashErr =
      "Traceback (most recent call last):\n" ++
      "  crash.star:6:2: in <toplevel>\n" ++
      "  crash.star:5:18: in i\n" ++
      "  crash.star:4:20: in h\n" ++
      "  <builtin>: in min\n" ++
      "  crash.star:3:12: in g\n" ++
      "  crash.star:2:19: in f\n" ++
      "Error: floored division by zero" :=
  ⟨rfl, rfl, rfl, rfl, rfl⟩

/-! ## Bytecode container format (C1, C5) -/

/-- Little-endian base-128 encoding of a natural number, with enough
fuel that the recursion is structural (spec section 4.4: varints). -/
def uvarintEncF : Nat → Nat → List Nat
  | 0, _ => []
  | fuel + 1, n =>
      if n < 128 then [n] else (n % 128 + 128) :: uvarintEncF fuel (n / 128)

/-- The varint bytes of a natural number. -/
def uvarintEnc (n : Nat) : List Nat := uvarintEncF (n + 1) n

/-- Read a varint off the front of a byte stream. -/
def uvarintDec : List Nat → Option (Nat × List Nat)
  | [] => none
  | b :: rest =>
      if b < 128 then some (b, rest)
      else
        match uvarintDec rest with
        | some (m, r) => some (m * 128 + (b - 128), r)
        | none => none

/-- Decoding a fuelled varint encoding returns the number and the tail. -/
theorem uvarintDec_encF :
    ∀ fuel n, n < fuel → ∀ rest : List Nat,
      uvarintDec (uvarintEncF fuel n ++ rest) = some (n, rest) := by
  intro fuel
  induction fuel with
  | zero => intro n h; omega
  | succ fuel ih =>
      intro n h rest
      by_cases h128 : n < 128
      · simp [uvarintEncF, h128, uvarintDec]
      · have hlt : n / 128 < n := Nat.div_lt_self (by omega) (by omega)
        have hrec := ih (n / 128) (by omega) rest
        have hb : ¬ (n % 128 + 128 < 128) := by omega
        simp only [uvarintEncF, if_neg h128, List.cons_append, uvarintDec,
          if_neg hb, hrec]
        have hval : n / 128 * 128 + (n % 128 + 128 - 128) = n := by omega
        rw [hval]

/-- Round-trip for varints, with the tail preserved. -/
theorem uvarintDec_enc (n : Nat) (rest : List Nat) :
    uvarintDec (uvarintEnc n ++ rest) = some (n, rest) :=
  uvarintDec_encF (n + 1) n (by omega) rest

/-- Zigzag mapping of an integer onto a natural, the varint carrier of
signed constants (spec section 4.4: ints as signed varints). -/
def zigzag (i : Int) : Nat :=
  if 0 ≤ i then 2 * i.toNat else 2 * (-i).toNat - 1

/-- Inverse of the zigzag mapping. -/
def unzigzag (n : Nat) : Int :=
  if n % 2 = 0 then ((n / 2 : Nat) : Int) else -(((n + 1) / 2 : Nat) : Int)

/-- The zigzag mapping round-trips. -/
theorem unzigzag_zigzag (i : Int) : unzigzag (zigzag i) = i := by
  unfold zigzag unzigzag
  by_cases h : 0 ≤ i
  · rw [if_pos h]
    have he : 2 * i.toNat % 2 = 0 := by omega
    rw [if_pos he]
    omega
  · rw [if_neg h]
    have ho : ¬ (2 * (-i).toNat - 1) % 2 = 0 := by omega
    rw [if_neg ho]
    omega

/-- Signed varint bytes of an integer constant. -/
def intEnc (i : Int) : List Nat := uvarintEnc (zigzag i)

/-- Read a signed varint off the front of a byte stream. -/
def intDec (bs : List Nat) : Option (Int × List Nat) :=
  match uvarintDec bs with
  | some (n, r) => some (unzigzag n, r)
  | none => none

/-- Round-trip for signed varints. -/
theorem intDec_enc (i : Int) (rest : List Nat) :
    intDec (intEnc i ++ rest) = some (i, rest) := by
  simp only [intDec, intEnc, uvarintDec_enc, unzigzag_zigzag]

/-- One flag byte for a boolean. -/
def boolEnc (b : Bool) : List Nat := [if b then 1 else 0]

/-- Read a flag byte. -/
def boolDec : List Nat → Option (Bool × List Nat)
  | 0 :: rest => some (false, rest)
  | 1 :: rest => some (true, rest)
  | _ => none

/-- Round-trip for flag bytes. -/
theorem boolDec_enc (b : Bool) (rest : List Nat) :
    boolDec (boolEnc b ++ rest) = some (b, rest) := by
  cases b <;> rfl

/-- A raw byte, encoded as itself. -/
def byteEnc (b : Nat) : List Nat := [b]

/-- Read one raw byte. -/
def byteDec : List Nat → Option (Nat × List Nat)
  | [] => none
  | b :: rest => some (b, rest)

/-- Round-trip for raw bytes. -/
theorem byteDec_enc (b : Nat) (rest : List Nat) :
    byteDec (byteEnc b ++ rest) = some (b, rest) := rfl

/-- A counted table: a varint count, then each entry's encoding in
order (spec section 4.4: count-prefixed tables, stable order). -/
def seqEnc (enc : α → List Nat) (xs : List α) : List Nat :=
  uvarintEnc xs.length ++ (xs.map enc).flatten

/-- Read a known number of entries off the front of a byte stream. -/
def seqDecN (dec : List Nat → Option (α × List Nat)) :
    Nat → List Nat → Option (List α × List Nat)
  | 0, bs => some ([], bs)
  | n + 1, bs =>
      match dec bs with
      | some (x, r) =>
          match seqDecN dec n r with
          | some (xs, r') => some (x :: xs, r')
          | none => none
      | none => none

/-- Read a counted table off the front of a byte stream. -/
def seqDec (dec : List Nat → Option (α × List Nat)) (bs : List Nat) :
    Option (List α × List Nat) :=
  match uvarintDec bs with
  | some (n, r) => seqDecN dec n r
  | none => none

/-- Reading back the entries of an encoded table returns them in order
with the tail preserved, given a round-tripping entry codec. -/
theorem seqDecN_enc {α : Type} (enc : α → List Nat)
    (dec : List Nat → Option (α × List Nat))
    (hdec : ∀ x rest, dec (enc x ++ rest) = some (x, rest)) :
    ∀ (xs : List α) (rest : List Nat),
      seqDecN dec xs.length ((xs.map enc).flatten ++ rest) = some (xs, rest) := by
  intro xs
  induction xs with
  | nil => intro rest; rfl
  | cons x xs ih =>
      intro rest
      simp only [List.map_cons, List.flatten_cons, List.length_cons,
        List.append_assoc, seqDecN, hdec, ih]

/-- Round-trip for counted tables. -/
theorem seqDec_enc {α : Type} (enc : α → List Nat)
    (dec : List Nat → Option (α × List Nat))
    (hdec : ∀ x rest, dec (enc x ++ rest) = some (x, rest))
    (xs : List α) (rest : List Nat) :
    seqDec dec (seqEnc enc xs ++ rest) = some (xs, rest) := by
  simp only [seqDec, seqEnc, List.append_assoc, uvarintDec_enc,
    seqDecN_enc enc dec hdec]

/-- Read one UTF-8 encoded code point off the front of a byte stream,
dispatching on the leading byte's range. -/
def charDec : List Nat → Option (Char × List Nat)
  | [] => none
  | b :: t =>
      if b < 0x80 then some (Char.ofNat b, t)
      else if b < 0xE0 then
        match t with
        | b1 :: t' => some (Char.ofNat ((b - 0xC0) * 0x40 + (b1 - 0x80)), t')
        | [] => none
      else if b < 0xF0 then
        match t with
        | b1 :: b2 :: t' =>
            some (Char.ofNat ((b - 0xE0) * 0x1000 + (b1 - 0x80) * 0x40 +
              (b2 - 0x80)), t')
        | _ => none
      else
        match t with
        | b1 :: b2 :: b3 :: t' =>
            some (Char.ofNat ((b - 0xF0) * 0x40000 + (b1 - 0x80) * 0x1000 +
              (b2 - 0x80) * 0x40 + (b3 - 0x80)), t')
        | _ => none

/-- Every code point is below the Unicode bound. -/
theorem char_toNat_lt (c : Char) : c.toNat < 0x110000 := by
  rcases c.valid with h | ⟨_, h2⟩
  · exact Nat.lt_trans h (by norm_num)
  · exact h2

/-- Round-trip for one UTF-8 code point, with the tail preserved. -/
theorem charDec_charBytes (c : Char) (rest : List Nat) :
    charDec (charBytes c.toNat ++ rest) = some (c, rest) := by
  have hv : c.toNat < 0x110000 := char_toNat_lt c
  have hback : Char.ofNat c.toNat = c := Char.ofNat_toNat c
  by_cases h1 : c.toNat < 0x80
  · simp [charBytes, charDec, h1, hback]
  · by_cases h2 : c.toNat < 0x800
    · have hlead : ¬ (0xC0 + c.toNat / 0x40 < 0x80) := by omega
      have hlead2 : 0xC0 + c.toNat / 0x40 < 0xE0 := by omega
      simp only [charBytes, if_neg h1, if_pos h2, List.cons_append,
        List.nil_append, charDec, if_neg hlead, if_pos hlead2]
      have hval : (0xC0 + c.toNat / 0x40 - 0xC0) * 0x40 +
          (0x80 + c.toNat % 0x40 - 0x80) = c.toNat := by omega
      rw [hval, hback]
    · by_cases h3 : c.toNat < 0x10000
      · have hlead : ¬ (0xE0 + c.toNat / 0x1000 < 0x80) := by omega
        have hlead2 : ¬ (0xE0 + c.toNat / 0x1000 < 0xE0) := by omega
        have hlead3 : 0xE0 + c.toNat / 0x1000 < 0xF0 := by omega
        simp only [charBytes, if_neg h1, if_neg h2, if_pos h3,
          List.cons_append, List.nil_append, charDec, if_neg hlead,
          if_neg hlead2, if_pos hlead3]
        have hval : (0xE0 + c.toNat / 0x1000 - 0xE0) * 0x1000 +
            (0x80 + c.toNat / 0x40 % 0x40 - 0x80) * 0x40 +
            (0x80 + c.toNat % 0x40 - 0x80) = c.toNat := by omega
        rw [hval, hback]
      · have hlead : ¬ (0xF0 + c.toNat / 0x40000 < 0x80) := by omega
        have hlead2 : ¬ (0xF0 + c.toNat / 0x40000 < 0xE0) := by omega
        have hlead3 : ¬ (0xF0 + c.toNat / 0x40000 < 0xF0) := by omega
        simp only [charBytes, if_neg h1, if_neg h2, if_neg h3,
          List.cons_append, List.nil_append, charDec, if_neg hlead,
          if_neg hlead2, if_neg hlead3]
        have hval : (0xF0 + c.toNat / 0x40000 - 0xF0) * 0x40000 +
            (0x80 + c.toNat / 0x1000 % 0x40 - 0x80) * 0x1000 +
            (0x80 + c.toNat / 0x40 % 0x40 - 0x80) * 0x40 +
            (0x80 + c.toNat % 0x40 - 0x80) = c.toNat := by omega
        rw [hval, hback]

/-- UTF-8 bytes of one character. -/
def charEnc (c : Char) : List Nat := charBytes c.toNat

/-- A string section: a count of characters followed by their UTF-8
encodings (spec section 4.4: length-prefixed UTF-8; the prefix here
counts code points rather than bytes, which changes only the prefix
value, not the character bytes). -/
def strEnc (s : String) : List Nat := seqEnc charEnc s.data

/-- Read a string section off the front of a byte stream. -/
def strDec (bs : List Nat) : Option (String × List Nat) :=
  match seqDec charDec bs with
  | some (cs, r) => some (String.mk cs, r)
  | none => none

/-- Round-trip for string sections. -/
theorem strDec_enc (s : String) (rest : List Nat) :
    strDec (strEnc s ++ rest) = some (s, rest) := by
  simp only [strDec, strEnc,
    seqDec_enc charEnc charDec (fun c r => charDec_charBytes c r)]

/-- A constant-pool entry (spec section 4.4, kind tags).  The model's
ints are arbitrary precision, so the Int and BigInt tags collapse into
one signed-varint kind; the Float kind is omitted because no examined
claim touches floating point. -/
inductive Konst where
  | noneK : Konst
  | trueK : Konst
  | falseK : Konst
  | intK : Int → Konst
  | strK : String → Konst
  | bytesK : List Nat → Konst

/-- A constant entry: a one-byte kind tag followed by that kind's
encoding. -/
def konstEnc : Konst → List Nat
  | .noneK => [0]
  | .trueK => [1]
  | .falseK => [2]
  | .intK i => 3 :: intEnc i
  | .strK s => 4 :: strEnc s
  | .bytesK bs => 5 :: seqEnc byteEnc bs

/-- Read a constant entry off the front of a byte stream. -/
def konstDec : List Nat → Option (Konst × List Nat)
  | [] => none
  | t :: bs =>
      if t = 0 then some (.noneK, bs)
      else if t = 1 then some (.trueK, bs)
      else if t = 2 then some (.falseK, bs)
      else if t = 3 then
        match intDec bs with
        | some (i, r) => some (.intK i, r)
        | none => none
      else if t = 4 then
        match strDec bs with
        | some (s, r) => some (.strK s, r)
        | none => none
      else if t = 5 then
        match seqDec byteDec bs with
        | some (l, r) => some (.bytesK l, r)
        | none => none
      else none

/-- Round-trip for constant entries. -/
theorem konstDec_enc (k : Konst) (rest : List Nat) :
    konstDec (konstEnc k ++ rest) = some (k, rest) := by
  cases k with
  | noneK => rfl
  | trueK => rfl
  | falseK => rfl
  | intK i => simp [konstEnc, konstDec, intDec_enc]
  | strK s => simp [konstEnc, konstDec, strDec_enc]
  | bytesK bs =>
      simp [konstEnc, konstDec, seqDec_enc byteEnc byteDec byteDec_enc]

/-- A position-table entry: instruction offset, line, column. -/
def posEnc (p : Nat × Nat × Nat) : List Nat :=
  uvarintEnc p.1 ++ uvarintEnc p.2.1 ++ uvarintEnc p.2.2

/-- Read a position-table entry off the front of a byte stream. -/
def posDec (bs : List Nat) : Option ((Nat × Nat × Nat) × List Nat) := do
  let (pc, bs) ← uvarintDec bs
  let (ln, bs) ← uvarintDec bs
  let (col, bs) ← uvarintDec bs
  return ((pc, ln, col), bs)

/-- Round-trip for position-table entries. -/
theorem posDec_enc (p : Nat × Nat × Nat) (rest : List Nat) :
    posDec (posEnc p ++ rest) = some (p, rest) := by
  obtain ⟨pc, ln, col⟩ := p
  simp [posEnc, posDec, List.append_assoc, uvarintDec_enc]

/-- A function-table entry (spec section 4.4, item 5): name, docstring,
parameter descriptor (names, default-value indices, varargs and kwargs
flags, number of keyword-only parameters), free variables, cell
variables, the code blob, and the position table. -/
structure Funcode where
  fn_name : String
  docstring : String
  paramNames : List String
  defaults : List Nat
  hasVarargs : Bool
  hasKwargs : Bool
  numKwonly : Nat
  freevars : List String
  cellvars : List String
  code : List Nat
  postable : List (Nat × Nat × Nat)

/-- A function-table entry's encoding: each field in order. -/
def funcEnc (f : Funcode) : List Nat :=
  strEnc f.fn_name ++ strEnc f.docstring ++ seqEnc strEnc f.paramNames ++
    seqEnc uvarintEnc f.defaults ++ boolEnc f.hasVarargs ++
    boolEnc f.hasKwargs ++ uvarintEnc f.numKwonly ++
    seqEnc strEnc f.freevars ++ seqEnc strEnc f.cellvars ++
    seqEnc byteEnc f.code ++ seqEnc posEnc f.postable

/-- Read a function-table entry off the front of a byte stream. -/
def funcDec (bs : List Nat) : Option (Funcode × List Nat) := do
  let (nm, bs) ← strDec bs
  let (doc, bs) ← strDec bs
  let (ps, bs) ← seqDec strDec bs
  let (ds, bs) ← seqDec uvarintDec bs
  let (va, bs) ← boolDec bs
  let (kw, bs) ← boolDec bs
  let (nk, bs) ← uvarintDec bs
  let (fv, bs) ← seqDec strDec bs
  let (cv, bs) ← seqDec strDec bs
  let (cd, bs) ← seqDec byteDec bs
  let (pt, bs) ← seqDec posDec bs
  return (⟨nm, doc, ps, ds, va, kw, nk, fv, cv, cd, pt⟩, bs)

/-- Round-trip for function-table entries. -/
theorem funcDec_enc (f : Funcode) (rest : List Nat) :
    funcDec (funcEnc f ++ rest) = some (f, rest) := by
  simp only [funcDec, funcEnc, List.append_assoc, strDec_enc,
    seqDec_enc strEnc strDec strDec_enc,
    seqDec_enc uvarintEnc uvarintDec uvarintDec_enc,
    boolDec_enc, uvarintDec_enc,
    seqDec_enc byteEnc byteDec byteDec_enc,
    seqDec_enc posEnc posDec posDec_enc,
    Option.bind_eq_bind, Option.some_bind, Option.pure_def]

/-- A compiled program (spec section 3): filename, names pool, constant
pool, function table, and the top-level function. -/
structure Program where
  filename : String
  names : List String
  constants : List Konst
  funcs : List Funcode
  toplevel : Funcode

/-- Modelled from the spec: the four-byte magic identifier of the
serialized format (its concrete value is not in src/; only its
existence and length are specified). -/
def magicBytes : List Nat := [0x21, 0x73, 0x6b, 0x79]

/-- The format version byte. -/
def formatVersion : Nat := 1

/-- The serialized header: magic then version. -/
def headerBytes : List Nat := magicBytes ++ [formatVersion]

/-- Program.Write, modelled from the spec (section 4.4): header,
filename, name table, constant table, function table, top-level
function, each section length- or count-prefixed, in a stable order. -/
def Write (p : Program) : List Nat :=
  headerBytes ++ strEnc p.filename ++ seqEnc strEnc p.names ++
    seqEnc konstEnc p.constants ++ seqEnc funcEnc p.funcs ++
    funcEnc p.toplevel

/-- Read the sections after the header. -/
def progBodyDec (bs : List Nat) : Option (Program × List Nat) := do
  let (fn, bs) ← strDec bs
  let (nms, bs) ← seqDec strDec bs
  let (ks, bs) ← seqDec konstDec bs
  let (fs, bs) ← seqDec funcDec bs
  let (top, bs) ← funcDec bs
  return (⟨fn, nms, ks, fs, top⟩, bs)

/-- CompiledProgram, modelled from the spec: reject any stream that
does not begin with the magic identifier and expected version with the
not-a-compiled-module error, then read the sections and require the
stream to end with them. -/
def CompiledProgram (bs : List Nat) : Except String Program :=
  if bs.take 5 = headerBytes then
    match progBodyDec (bs.drop 5) with
    | some (p, []) => .ok p
    | some (_, _ :: _) => .error "invalid program: trailing data"
    | none => .error "invalid program: corrupt section"
  else .error "not a compiled module"

/-- Round-trip for program bodies. -/
theorem progBodyDec_enc (p : Program) :
    progBodyDec (strEnc p.filename ++ seqEnc strEnc p.names ++
      seqEnc konstEnc p.constants ++ seqEnc funcEnc p.funcs ++
      funcEnc p.toplevel) = some (p, []) := by
  have hlast : funcEnc p.toplevel = funcEnc p.toplevel ++ [] :=
    (List.append_nil _).symm
  rw [hlast]
  simp only [progBodyDec, List.append_assoc, strDec_enc,
    seqDec_enc strEnc strDec strDec_enc,
    seqDec_enc konstEnc konstDec konstDec_enc,
    seqDec_enc funcEnc funcDec funcDec_enc,
    funcDec_enc, Option.bind_eq_bind, Option.some_bind, Option.pure_def]

/-- Decoding an encoded program returns it unchanged. -/
theorem compiledProgram_write (p : Program) :
    CompiledProgram (Write p) = .ok p := by
  have htake : (Write p).take 5 = headerBytes := by
    have h5 : (5 : Nat) = headerBytes.length := rfl
    simp only [Write, List.append_assoc, h5, List.take_left]
  have hdrop : (Write p).drop 5 =
      strEnc p.filename ++ seqEnc strEnc p.names ++
        seqEnc konstEnc p.constants ++ seqEnc funcEnc p.funcs ++
        funcEnc p.toplevel := by
    have h5 : (5 : Nat) = headerBytes.length := rfl
    simp only [Write, List.append_assoc, h5, List.drop_left]
  rw [CompiledProgram, if_pos htake, hdrop, progBodyDec_enc]

/-- C5: any byte stream that does not open with the magic identifier
and expected version is rejected by the decoder with the
not-a-compiled-module error; in particular the literal bytes of the
garbage sentence of TestGarbage are rejected with exactly that error. -/
theorem garbage_rejected :
    (∀ bs : List Nat, bs.take 5 ≠ headerBytes →
      CompiledProgram bs = .error "not a compiled module") ∧
    CompiledProgram (strBytes "This is not a compiled Starlark program.") =
      .error "not a compiled module" := by
  constructor
  · intro bs h
    rw [CompiledProgram, if_neg h]
  · rfl

/-- Closed instance of the C5 theorem at the garbage bytes themselves. -/
theorem garbage_rejected_witness :
    CompiledProgram (strBytes "This is not a compiled Starlark program.") =
      .error "not a compiled module" :=
  garbage_rejected.1 (strBytes "This is not a compiled Starlark program.")
    (by decide)

/-- The last position-table entry at or before a pc, scanning an
offset-sorted table (spec section 4.3). -/
def posAtAux (best : Nat × Nat) : List (Nat × Nat × Nat) → Nat → Nat × Nat
  | [], _ => best
  | (p, l, c) :: rest, pc =>
      if p ≤ pc then posAtAux (l, c) rest pc else best

/-- Line and column for a pc, from a function's position table. -/
def posAt (table : List (Nat × Nat × Nat)) (pc : Nat) : Nat × Nat :=
  posAtAux (0, 0) table pc

/-- A rendered source position: file, line, column. -/
def posRender (filename : String) (lc : Nat × Nat) : String :=
  filename ++ ":" ++ toString lc.1 ++ ":" ++ toString lc.2

/-- The compiled body of def mul(a, b): return a * b: an opaque code
blob for the container plus the position table placing the binary
operator at 3:14 (as TestSerialization's traceback shows). -/
def mulFn : Funcode :=
  ⟨"mul", "", ["a", "b"], [], false, false, 0, [], [], [7, 0, 7, 1, 23, 11],
   [(4, 3, 14)]⟩

/-- The compiled top level of the mul program: the call of mul at 5:8. -/
def mulTop : Funcode :=
  ⟨"<toplevel>", "", [], [], false, false, 0, [], [], [9, 0, 8, 1, 8, 2, 16, 2, 13, 3, 11],
   [(6, 5, 8)]⟩

/-- The compiled program of TestSerialization:
def mul(a, b): return a * b, then y = mul(x, n). -/
def mulProg : Program :=
  ⟨"mul.star", ["mul", "x", "n", "y"], [], [mulFn], mulTop⟩

/-- Program.Init, modelled from the spec for the mul program shape (the
VM is missing from src/): look up the predeclared x and n, apply
mul(a, b) = a * b, and bind the global y.  On a binary-op failure the
EvalError's two frames — top level at the call, mul at the operator —
take their filename and line/column from the program value itself, so
Init depends on the program it is given. -/
def Init (p : Program) (env : String → Option Val) :
    Except EvalError (List (String × Val)) :=
  let callFrame := (posRender p.filename (posAt p.toplevel.postable 6),
    "<toplevel>")
  let mulTable := match p.funcs with
    | f :: _ => f.postable
    | [] => []
  let mulFrame := (posRender p.filename (posAt mulTable 4), "mul")
  match env "x", env "n" with
  | some a, some b =>
      match binMul a b with
      | .ok v => .ok [("y", v)]
      | .error m => .error ⟨m, [callFrame, mulFrame]⟩
  | _, _ => .error ⟨"undefined predeclared name", [callFrame]⟩

/-- The predeclared environment of TestSerialization. -/
def mulEnv : String → Option Val :=
  fun n => if n = "x" then some (.strV "mur")
    else if n = "n" then some (.intV 2) else none

/-- The re-run environment with n rebound to None. -/
def mulEnvNone : String → Option Val :=
  fun n => if n = "x" then some (.strV "mur")
    else if n = "n" then some .noneV else none

/-- The EvalError the re-run with n = None must produce. -/
def mulErr : EvalError :=
  ⟨"unknown binary op: string * NoneType",
   [("mul.star:5:8", "<toplevel>"), ("mul.star:3:14", "mul")]⟩

/-- C1: decoding an encoded program returns it unchanged — so its Init
agrees with the original on every thread environment — and for the mul
program of TestSerialization the decoded program's Init yields the
global y = murmur for x = mur, n = 2, while re-running with n = None
fails with a traceback whose frames carry the program's filename with
literal line and column (mul.star:3:14: in mul) and the message
unknown binary op: string * NoneType. -/
theorem serialization_roundtrip :
    (∀ p : Program, CompiledProgram (Write p) = .ok p) ∧
    (∀ p' : Program, CompiledProgram (Write mulProg) = .ok p' →
      (∀ env, Init p' env = Init mulProg env) ∧
      Init p' mulEnv = .ok [("y", .strV "murmur")] ∧
      Init p' mulEnvNone = .error mulErr ∧
      Backtrace mulErr =
        "Traceback (most recent call last):\n" ++
        "  mul.star:5:8: in <toplevel>\n" ++
        "  mul.star:3:14: in mul\n" ++
        "Error: unknown binary op: string * NoneType") := by
  refine ⟨compiledProgram_write, ?_⟩
  intro p' h
  have hmul : CompiledProgram (Write mulProg) = .ok mulProg :=
    compiledProgram_write mulProg
  rw [hmul] at h
  cases h
  exact ⟨fun _ => rfl, rfl, rfl, rfl⟩

/-- Closed instance of the C1 theorem: the encoded-then-decoded mul
program initializes to the murmur global. -/
theorem serialization_roundtrip_witness :
    CompiledProgram (Write mulProg) = .ok mulProg ∧
    Init mulProg mulEnv = .ok [("y", .strV "murmur")] :=
  ⟨serialization_roundtrip.1 mulProg,
   ((serialization_roundtrip.2 mulProg
      (serialization_roundtrip.1 mulProg)).2).1⟩

/-! ## UnpackArgs type mismatches (C10) -/

/-- An unpack target: the pointer a caller passes for one parameter.
The hasfields target holds values of the test helper's attribute type;
the badType target's flag records whether the pointer is nil — a nil
badType pointer's Type method cannot be invoked (it would panic), so
only the Go type name is available for it. -/
inductive UnpackTarget where
  | hasfieldsT : UnpackTarget
  | badTypeT : Bool → UnpackTarget
  | intT : UnpackTarget

/-- Whether a value's dynamic type matches the target's type. -/
def targetAccepts : UnpackTarget → FVal → Bool
  | .hasfieldsT, .fieldsF _ _ => true
  | .hasfieldsT, _ => false
  | .badTypeT _, _ => false
  | .intT, .intF _ => true
  | .intT, _ => false

/-- The wanted-type name in the mismatch message: the language type
name when the target value's Type method is invokable, else the Go
type name of the pointer. -/
def targetWant : UnpackTarget → String
  | .hasfieldsT => "hasfields"
  | .badTypeT false => "badType"
  | .badTypeT true => "*pkgscript_test.badType"
  | .intT => "int"

/-- Modelled from the spec: UnpackArgs restricted to one parameter (the
implementation is missing from src/): a type mismatch returns an error
— never panics — whose message names the function, the parameter, the
supplied value's type and the wanted type. -/
def UnpackArgs (fname pname : String) (v : FVal) (t : UnpackTarget) :
    Except String FVal :=
  if targetAccepts t v then .ok v
  else .error (fname ++ ": for parameter " ++ pname ++ ": got " ++
    FVal.ftypeName v ++ ", want " ++ targetWant t)

/-- C10: whenever the supplied argument's type does not match the
target, UnpackArgs returns (rather than panics) the structured
mismatch error; concretely, unpacking the int 42 into a hasfields
target and None into a badType target yield exactly the messages of
TestUnpackUserDefined and TestUnpackErrorBadType, with the Go type
name used when the target pointer is nil. -/
theorem unpack_mismatch_error :
    (∀ fname pname v t, targetAccepts t v = false →
      UnpackArgs fname pname v t = .error (fname ++ ": for parameter " ++
        pname ++ ": got " ++ FVal.ftypeName v ++ ", want " ++
        targetWant t)) ∧
    UnpackArgs "unpack" "x" (.intF 42) .hasfieldsT =
      .error "unpack: for parameter x: got int, want hasfields" ∧
    UnpackArgs "unpack" "x" (.fieldsF false .anil) .hasfieldsT =
      .ok (.fieldsF false .anil) ∧
    UnpackArgs "f" "x" .noneF (.badTypeT false) =
      .error "f: for parameter x: got NoneType, want badType" ∧
    UnpackArgs "f" "x" .noneF (.badTypeT true) =
      .error "f: for parameter x: got NoneType, want *pkgscript_test.badType" := by
  refine ⟨?_, rfl, rfl, rfl, rfl⟩
  intro fname pname v t h
  rw [UnpackArgs, if_neg]
  simp [h]

/-- Closed instance of the C10 theorem at the inputs of
TestUnpackUserDefined. -/
theorem unpack_mismatch_error_witness :
    targetAccepts .hasfieldsT (.intF 42) = false ∧
    UnpackArgs "unpack" "x" (.intF 42) .hasfieldsT =
      .error ("unpack" ++ ": for parameter " ++ "x" ++ ": got " ++
        FVal.ftypeName (.intF 42) ++ ", want " ++ targetWant .hasfieldsT) :=
  ⟨rfl, unpack_mismatch_error.1 "unpack" "x" (.intF 42) .hasfieldsT rfl⟩

end Pkgscript
